import Mathlib

/-
Verification of the assembly_emulator_v2 backend core:
a shallow embedding of src/backend/app/assembler.py and
src/backend/app/processor.py (the operand parsing, two-pass
assembler, instruction encoder/decoder, processor execute/step
state machine, history recorder and flag logic), together with
theorems settling the specification claims.

Conventions of the embedding:
  - Python ints are Lean Int (arbitrary precision, like Python);
    the mask x & 0xFFFF on a Python int equals x mod 65536 with a
    nonnegative result, which is Int.emod here.
  - Python x >> k = x / 2^k and x & (2^k - 1) = x % 2^k on
    nonnegative values; bit-packing ORs of disjoint shifted fields
    are written as sums of the shifted (masked) fields.
  - Python exceptions are modelled explicitly: a function that can
    raise returns an Option / Except, or a pair (state, Option msg)
    when the partially mutated state survives the raise.
  - Python values that may be either an int or a str (operands that
    may be unresolved labels) are the tagged type OperandVal.
-/

/-- Python str.strip on a character list. -/
def listStrip (cs : List Char) : List Char :=
  ((cs.dropWhile Char.isWhitespace).reverse.dropWhile Char.isWhitespace).reverse

/-- Python str.strip. -/
def pyStrip (s : String) : String :=
  String.mk (listStrip s.data)

/-- Python str.lower (ASCII, which is all the source ever feeds it). -/
def pyLower (s : String) : String :=
  String.mk (s.data.map Char.toLower)

/-- Python str.upper (ASCII). -/
def pyUpper (s : String) : String :=
  String.mk (s.data.map Char.toUpper)

/-- Prefix test on character lists. -/
def leadingMatch : List Char → List Char → Bool
  | [], _ => true
  | _ :: _, [] => false
  | p :: ps, c :: cs => p = c && leadingMatch ps cs

/-- Python str.startswith. -/
def pyStartsWith (s pre : String) : Bool :=
  leadingMatch pre.data s.data

/-- Python str.endswith. -/
def pyEndsWith (s suf : String) : Bool :=
  leadingMatch suf.data.reverse s.data.reverse

/-- Python s[n:] (drop the first n characters). -/
def pyDrop (s : String) (n : Nat) : String :=
  String.mk (s.data.drop n)

/-- Python s[:-n] (drop the last n characters). -/
def pyDropRight (s : String) (n : Nat) : String :=
  String.mk (s.data.reverse.drop n |>.reverse)

/-- Python c in s (single-character membership). -/
def pyContainsChar (s : String) (c : Char) : Bool :=
  s.data.any (fun d => d = c)

/-- Python s[:s.index(c)] (everything before the first occurrence of c). -/
def pyBefore (s : String) (c : Char) : String :=
  String.mk (s.data.takeWhile (fun d => ¬(d = c)))

/-- Python s.split(c, 1) second component (everything after the first c). -/
def pyAfter (s : String) (c : Char) : String :=
  String.mk ((s.data.dropWhile (fun d => ¬(d = c))).drop 1)

/-- Python str.replace(',', ' '). -/
def replaceCommas (s : String) : String :=
  String.mk (s.data.map (fun c => if c = ',' then ' ' else c))

/-- Whitespace splitter on character lists, dropping empty runs,
accumulating the current token in reverse. -/
def splitWsAux : List Char → List Char → List String
  | [], acc =>
    if acc.isEmpty then [] else [String.mk acc.reverse]
  | c :: cs, acc =>
    if c.isWhitespace then
      if acc.isEmpty then splitWsAux cs []
      else String.mk acc.reverse :: splitWsAux cs []
    else splitWsAux cs (c :: acc)

/-- Python str.split() with no argument: split on whitespace runs,
no empty tokens. -/
def pySplitWs (s : String) : List String :=
  splitWsAux s.data []

/-- Python str.isdigit for the ASCII strings the source handles:
nonempty and all decimal digits. -/
def pyIsDigitStr (s : String) : Bool :=
  ¬s.data.isEmpty && s.data.all Char.isDigit

/-- Value of one digit in a given base, if valid. -/
def digitVal (base : Nat) (c : Char) : Option Nat :=
  let v : Option Nat :=
    if c.isDigit then some (c.toNat - '0'.toNat)
    else if 'a' ≤ c ∧ c ≤ 'f' then some (c.toNat - 'a'.toNat + 10)
    else if 'A' ≤ c ∧ c ≤ 'F' then some (c.toNat - 'A'.toNat + 10)
    else none
  match v with
  | some n => if n < base then some n else none
  | none => none

/-- Parse a nonempty digit string in the given base (Python
int(s, base) with no sign, as the source call sites use it). -/
def parseDigitsAux (base : Nat) : List Char → Nat → Option Nat
  | [], acc => some acc
  | c :: cs, acc =>
    match digitVal base c with
    | some d => parseDigitsAux base cs (acc * base + d)
    | none => none

/-- Python int(s, base) for an already stripped string: fails on the
empty string or any invalid digit. -/
def parseDigits (base : Nat) (s : String) : Option Nat :=
  if s.data.isEmpty then none else parseDigitsAux base s.data 0

/-- Python int(s) on a string: optional surrounding whitespace, an
optional sign, then decimal digits. -/
def pyIntOfString (s : String) : Option Int :=
  let t := pyStrip s
  if pyStartsWith t ("-") then
    (parseDigits 10 (pyDrop t 1)).map (fun n => -(n : Int))
  else if pyStartsWith t ("+") then
    (parseDigits 10 (pyDrop t 1)).map (fun n => (n : Int))
  else
    (parseDigits 10 t).map (fun n => (n : Int))

/-- The addressing modes of models.AddressingMode. -/
inductive AddressingMode where
  | immediate
  | direct
  | register
  | indirectRegister
deriving DecidableEq, Repr

/-- A parsed operand value: a Python int or a Python str (an
unresolved label). -/
inductive OperandVal where
  | num (i : Int)
  | label (s : String)
deriving DecidableEq, Repr

/-- The four processor flags (the source keeps them in a dict that
always holds exactly these keys). -/
structure Flags where
  zero : Bool
  carry : Bool
  overflow : Bool
  negative : Bool
deriving DecidableEq, Repr

/-- The all-false flag dict the source initialises and resets to. -/
def Flags.clear : Flags :=
  { zero := false, carry := false, overflow := false, negative := false }

/-- RISCProcessor.update_flags: recompute all four flags from a raw
integer result and an operation tag. -/
def updateFlags (result : Int) (operation : String) : Flags :=
  { zero := decide (result = 0)
    negative := decide (result < 0)
    overflow := decide (result > 32767 ∨ result < -32768)
    carry :=
      if operation = "add" ∧ result < 0 then true
      else if operation = "sub" ∧ result > 0 then true
      else false }

/-- RISCProcessor._parse_number and RISCAssembler._parse_number (the
two sources are verbatim duplicates): 0x hex, 0b binary, else
Python int(). -/
def parseNumber (value : String) : Option Int :=
  let v := pyLower (pyStrip value)
  if pyStartsWith v ("0x") then
    (parseDigits 16 (pyDrop v 2)).map (fun n => (n : Int))
  else if pyStartsWith v ("0b") then
    (parseDigits 2 (pyDrop v 2)).map (fun n => (n : Int))
  else
    pyIntOfString v

/-- RISCProcessor._parse_register: R0-R7, case-insensitive; none
models the ValueError raise. -/
def parseRegister (regStr : String) : Option Nat :=
  let r := pyStrip (pyUpper regStr)
  if pyStartsWith r ("R") ∧ r.data.length = 2 then
    match r.data.drop 1 with
    | c :: _ =>
      if c.isDigit then
        let n := c.toNat - '0'.toNat
        if n ≤ 7 then some n else none
      else none
    | [] => none
  else none

/-- RISCProcessor._parse_operand: priority is plain decimal, then 0x
(lower-case prefix only, yielding IMMEDIATE), then brackets (register
inside gives indirect-register, otherwise a direct address), then a
bare register, then an unresolved label. none models a raised
ValueError from the number/register sub-parsing. -/
def processorParseOperand (operandStr : String) : Option (OperandVal × AddressingMode) :=
  let s := pyStrip operandStr
  if pyIsDigitStr s ∨ (pyStartsWith s ("-") ∧ pyIsDigitStr (pyDrop s 1)) then
    (parseNumber s).map (fun n => (.num n, .immediate))
  else if pyStartsWith s ("0x") then
    (parseNumber s).map (fun n => (.num n, .immediate))
  else if pyStartsWith s ("[") ∧ pyEndsWith s ("]") then
    let inner := pyStrip (pyDropRight (pyDrop s 1) 1)
    if pyStartsWith (pyUpper inner) ("R") ∧ inner.data.length = 2 then
      (parseRegister inner).map (fun n => (.num (n : Int), .indirectRegister))
    else
      (parseNumber inner).map (fun n => (.num n, .direct))
  else if pyStartsWith (pyUpper s) ("R") ∧ s.data.length = 2 then
    (parseRegister s).map (fun n => (.num (n : Int), .register))
  else
    some (.label s, .immediate)

/-- RISCAssembler._parse_operand: priority is brackets (direct
address), then a 0x/0X hex token (direct address), then a plain
optionally negative decimal (immediate), then an unresolved label
(immediate). -/
def assemblerParseOperand (operandStr : String) : Option (OperandVal × AddressingMode) :=
  let s := pyStrip operandStr
  if pyStartsWith s ("[") ∧ pyEndsWith s ("]") then
    let addressStr := pyStrip (pyDropRight (pyDrop s 1) 1)
    (parseNumber addressStr).map (fun n => (.num n, .direct))
  else if pyStartsWith s ("0x") ∨ pyStartsWith s ("0X") then
    (parseNumber s).map (fun n => (.num n, .direct))
  else if pyIsDigitStr s ∨ (pyStartsWith s ("-") ∧ pyIsDigitStr (pyDrop s 1)) then
    (parseNumber s).map (fun n => (.num n, .immediate))
  else
    some (.label s, .immediate)

/-- The RISCProcessor instruction table (mnemonic to opcode). -/
def processorInstructions : List (String × Nat) :=
  [("ADD", 0x01), ("SUB", 0x02), ("MUL", 0x03), ("DIV", 0x04),
   ("AND", 0x05), ("OR", 0x06), ("XOR", 0x07), ("NOT", 0x08),
   ("MOV", 0x10), ("LDI", 0x11), ("LDR", 0x12), ("LDRR", 0x13),
   ("STR", 0x14), ("STRR", 0x15),
   ("CMP", 0x20), ("JMP", 0x21), ("JZ", 0x22), ("JNZ", 0x23),
   ("JC", 0x24), ("JNC", 0x25), ("JV", 0x26), ("JNV", 0x27),
   ("JN", 0x28), ("JNN", 0x29),
   ("HALT", 0xFF), ("NOP", 0x00)]

/-- Dictionary lookup in the processor instruction table. -/
def processorOpcode (instr : String) : Option Nat :=
  (processorInstructions.find? (fun p => p.1 = instr)).map (fun p => p.2)

/-- The RISCAssembler instruction table (the one-address set: LDA and
STA instead of the processor's MOV/LDR/STR family). -/
def assemblerInstructions : List (String × Nat) :=
  [("ADD", 0x01), ("SUB", 0x02), ("MUL", 0x03), ("DIV", 0x04),
   ("AND", 0x05), ("OR", 0x06), ("XOR", 0x07), ("NOT", 0x08),
   ("LDA", 0x10), ("STA", 0x11), ("LDI", 0x12),
   ("CMP", 0x20), ("JMP", 0x21), ("JZ", 0x22), ("JNZ", 0x23),
   ("JC", 0x24), ("JNC", 0x25), ("JV", 0x26), ("JNV", 0x27),
   ("JN", 0x28), ("JNN", 0x29),
   ("HALT", 0xFF), ("NOP", 0x00)]

/-- Dictionary lookup in the assembler instruction table. -/
def assemblerOpcode (instr : String) : Option Nat :=
  (assemblerInstructions.find? (fun p => p.1 = instr)).map (fun p => p.2)

/-- The payload RISCAssembler.get_instruction_info returns for a known
mnemonic. -/
structure InstrInfo where
  opcode : Nat
  type : String
  description : String
  operands : List String
  addressingModes : List String
deriving DecidableEq, Repr

/-- RISCAssembler.get_instruction_info: static lookup; an unknown
mnemonic yields an error payload (the Sum.inl case), not a raise. -/
def getInstructionInfo (instruction : String) : String ⊕ InstrInfo :=
  let instr := pyStrip (pyUpper instruction)
  match assemblerOpcode instr with
  | none => .inl ("Unknown instruction: " ++ instr)
  | some opcode =>
    if instr = "ADD" ∨ instr = "SUB" ∨ instr = "MUL" ∨ instr = "DIV" ∨
       instr = "AND" ∨ instr = "OR" ∨ instr = "XOR" then
      .inr { opcode := opcode, type := "I",
             description := instr ++ " operand", operands := ["operand"],
             addressingModes := ["immediate", "direct"] }
    else if instr = "NOT" then
      .inr { opcode := opcode, type := "S",
             description := instr, operands := [], addressingModes := [] }
    else if instr = "LDA" ∨ instr = "STA" then
      .inr { opcode := opcode, type := "I",
             description := instr ++ " operand", operands := ["operand"],
             addressingModes := ["immediate", "direct"] }
    else if instr = "LDI" then
      .inr { opcode := opcode, type := "I",
             description := instr ++ " immediate", operands := ["immediate"],
             addressingModes := ["immediate"] }
    else if instr = "CMP" then
      .inr { opcode := opcode, type := "I",
             description := instr ++ " operand", operands := ["operand"],
             addressingModes := ["immediate", "direct"] }
    else if instr = "JMP" ∨ instr = "JZ" ∨ instr = "JNZ" ∨ instr = "JC" ∨
            instr = "JNC" ∨ instr = "JV" ∨ instr = "JNV" ∨ instr = "JN" ∨
            instr = "JNN" then
      .inr { opcode := opcode, type := "J",
             description := instr ++ " address", operands := ["address"],
             addressingModes := ["immediate", "direct"] }
    else
      .inr { opcode := opcode, type := "S",
             description := instr, operands := [], addressingModes := [] }

/-- The addressing-mode field of the decoded instruction word
(processor mode_codes table, defaulting to REGISTER for codes 4-7). -/
def modeOfCode (n : Nat) : AddressingMode :=
  if n = 0 then .immediate
  else if n = 1 then .direct
  else if n = 2 then .register
  else if n = 3 then .indirectRegister
  else .register

/-- RISCProcessor._addressing_mode_to_code. -/
def modeToCode (mode : AddressingMode) : Nat :=
  match mode with
  | .immediate => 0
  | .direct => 1
  | .register => 2
  | .indirectRegister => 3

/-- The numeric and mode fields of models.InstructionField (the
*_bits display strings of the source are pure formatting of these
numbers and are not modelled). -/
structure InstructionField where
  opcode : Nat
  rd : Nat
  rs1 : Nat
  rs2 : Nat
  immediate : Nat
  addressingMode : AddressingMode
  instructionType : String
deriving DecidableEq, Repr

/-- RISCProcessor._decode_instruction: bits [15:12] opcode, [11:9] rd,
[8:6] rs1, [5:3] rs2, [2:0] addressing-mode code; a word above 0xFFFF
carries an immediate in its upper bits.  Python (w >> k) & m is
w / 2^k % (m+1) on these nonnegative words. -/
def procDecodeInstruction (instruction : Nat) : InstructionField :=
  let immediate := if instruction > 0xFFFF then instruction / 2 ^ 16 else 0
  let opcode := instruction / 2 ^ 12 % 16
  let rd := instruction / 2 ^ 9 % 8
  let rs1 := instruction / 2 ^ 6 % 8
  let rs2 := instruction / 2 ^ 3 % 8
  let addrModeCode := instruction % 8
  { opcode := opcode, rd := rd, rs1 := rs1, rs2 := rs2,
    immediate := immediate,
    addressingMode := modeOfCode addrModeCode,
    instructionType := if immediate ≠ 0 then ("I") else ("R") }

/-- RISCProcessor._encode_instruction: the OR of the disjoint shifted
fields, written as a sum (the source only ever packs the in-range
field values this function is applied to below, for which the Python
ORs coincide with these sums). -/
def procEncodeInstruction (opcode rd rs1 rs2 immediate : Nat)
    (addressingMode : AddressingMode) : Nat :=
  if addressingMode = .immediate ∧ immediate ≠ 0 then
    immediate * 2 ^ 16 + opcode * 2 ^ 12 + rd * 2 ^ 9 + rs1 * 2 ^ 6 +
      rs2 * 2 ^ 3 + modeToCode addressingMode
  else
    opcode * 2 ^ 12 + rd * 2 ^ 9 + rs1 * 2 ^ 6 + rs2 * 2 ^ 3 +
      modeToCode addressingMode

/-- Re-encoding of a decoded field record with the processor encoder. -/
def procEncodeField (f : InstructionField) : Nat :=
  procEncodeInstruction f.opcode f.rd f.rs1 f.rs2 f.immediate f.addressingMode

/-- RISCAssembler._encode_instruction (one-address layout): 16-bit
words are opcode in bits [15:12] and operand/address in bits [11:0];
an immediate above 0xFFF moves to the upper half of a 32-bit word; a
direct address above 0xFFF raises (the error case).  The operand here
is the nonnegative parsed address/value the source feeds it. -/
def asmEncodeInstruction (opcode : Nat) (operand : Nat)
    (addressingMode : AddressingMode) : Except String Nat :=
  if operand = 0 ∧ addressingMode = .immediate then
    .ok (opcode * 2 ^ 12)
  else if addressingMode = .immediate ∧ operand ≠ 0 then
    if operand ≤ 0xFFF then
      .ok (opcode * 2 ^ 12 + operand % 2 ^ 12)
    else
      .ok (operand * 2 ^ 16 + opcode * 2 ^ 12)
  else if addressingMode = .direct then
    if operand > 0xFFF then
      .error ("Address exceeds 12-bit limit (0xFFF)")
    else
      .ok (opcode * 2 ^ 12 + operand % 2 ^ 12)
  else
    .ok (opcode * 2 ^ 12 + operand % 2 ^ 12)

/-- Python list indexing l[i] with negative-index wraparound; none
models an IndexError. -/
def pyListGet {α : Type} (l : List α) (i : Int) : Option α :=
  let j : Int := if i < 0 then (l.length : Int) + i else i
  if j < 0 then none else l.get? j.toNat

/-- Python int(v) on an operand value (int or str). -/
def pyIntOfVal (v : OperandVal) : Option Int :=
  match v with
  | .num i => some i
  | .label s => pyIntOfString s

/-- The slice of processor/memory state that execute_instruction and
its helpers read and write: registers, flags, program counter, halt
flag and RAM.  The cycle counter, instruction-register display fields
and the history are never touched by the execute phase and live only
in the full EmuState.  The program counter is an Int or, after a jump
to an unresolved label, the label string itself (Python stores the
str straight into the attribute). -/
structure ExecState where
  registers : List Int
  flags : Flags
  programCounter : Int ⊕ String
  isHalted : Bool
  ram : List Int
  memorySize : Nat
deriving DecidableEq, Repr

/-- Flag replacement (the source mutates the flags dict wholesale in
update_flags). -/
def setFlagsEs (es : ExecState) (f : Flags) : ExecState :=
  { es with flags := f }

/-- Pad the register list to exactly eight entries. -/
def padTo8 (l : List Int) : List Int :=
  (l ++ List.replicate (8 - l.length) 0).take 8

/-- RISCProcessor._update_register, with the partially-applied
mutations of the source kept on the raise paths: the empty-register
initialisation sticks, the final register write only happens when the
index and value are valid.  The second component carries the raised
message, if any. -/
def updateRegister (es0 : ExecState) (rd : OperandVal) (value : OperandVal) :
    ExecState × Option String :=
  let regs0 := if es0.registers.isEmpty then List.replicate 8 0 else es0.registers
  let es := { es0 with registers := regs0 }
  let newRegisters := padTo8 ((regs0.take 8).map (fun r => r.emod 65536))
  match rd with
  | .label _ => (es, some ("TypeError: register index is not an int"))
  | .num r =>
    if 0 ≤ r ∧ r < 8 then
      match pyIntOfVal value with
      | some v => ({ es with registers := newRegisters.set r.toNat (v.emod 65536) }, none)
      | none => (es, some ("ValueError: invalid literal for int"))
    else
      (es, some ("Invalid register index: " ++ toString r ++ " (must be 0-7)"))

/-- RISCProcessor._get_operand_value.  Out-of-range register or
memory reads return 0 (with a debug print in the source), they do not
raise; only type confusion (a str where an int is compared) and raw
register indexing raise. -/
def getOperandValue (es : ExecState) (operand : OperandVal) (mode : AddressingMode) :
    Except String OperandVal :=
  match mode with
  | .immediate => .ok operand
  | .register =>
    if es.registers.isEmpty then .ok (.num 0)
    else
      match operand with
      | .label _ => .error ("TypeError: register operand is not an int")
      | .num r =>
        if r < 0 ∨ r ≥ es.registers.length then .ok (.num 0)
        else .ok (.num ((es.registers.get? r.toNat).getD 0))
  | .direct =>
    match operand with
    | .label _ => .error ("TypeError: memory address is not an int")
    | .num a =>
      if 0 ≤ a ∧ a < es.ram.length then .ok (.num ((es.ram.get? a.toNat).getD 0))
      else .ok (.num 0)
  | .indirectRegister =>
    match operand with
    | .label _ => .error ("TypeError: list indices must be integers")
    | .num r =>
      match pyListGet es.registers r with
      | none => .error ("IndexError: list index out of range")
      | some addr =>
        if es.ram.isEmpty then .ok (.num 0)
        else if 0 ≤ addr ∧ addr < es.ram.length then
          .ok (.num ((es.ram.get? addr.toNat).getD 0))
        else .ok (.num 0)

/-- The shared body of _set_operand_value for a direct memory write
to address a: create RAM if empty (to max(a+1, memory_size) cells),
extend it when a is past the end, then store value & 0xFFFF.  The
mutations made before a raise (creation, extension) stick. -/
def setDirectRam (es0 : ExecState) (a : Int) (value : OperandVal) :
    ExecState × Option String :=
  let ram1 := if es0.ram.isEmpty then
      List.replicate (max (a + 1) (es0.memorySize : Int)).toNat 0
    else es0.ram
  let ram2 := if a ≥ (ram1.length : Int) then
      ram1 ++ List.replicate ((a + 1).toNat - ram1.length) 0
    else ram1
  let es := { es0 with ram := ram2 }
  match pyIntOfVal value with
  | none => (es, some ("ValueError: invalid literal for int"))
  | some v =>
    let j : Int := if a < 0 then (ram2.length : Int) + a else a
    if j < 0 then (es, some ("IndexError: list assignment index out of range"))
    else ({ es with ram := ram2.set j.toNat (v.emod 65536) }, none)

/-- RISCProcessor._set_operand_value: a register write delegates to
_update_register, direct and indirect-register writes share the
grow-and-store body, and an immediate destination silently matches no
branch (the write is dropped). -/
def setOperandValue (es : ExecState) (operand : OperandVal) (value : OperandVal)
    (mode : AddressingMode) : ExecState × Option String :=
  match mode with
  | .register => updateRegister es operand value
  | .direct =>
    match operand with
    | .label _ => (es, some ("TypeError: memory address is not an int"))
    | .num a => setDirectRam es a value
  | .indirectRegister =>
    match operand with
    | .label _ => (es, some ("TypeError: list indices must be integers"))
    | .num r =>
      match pyListGet es.registers r with
      | none => (es, some ("IndexError: list index out of range"))
      | some addr => setDirectRam es addr value
  | .immediate => (es, none)

/-- The trailing program-counter increment at the end of
execute_instruction, reached by every branch that does not return
early. -/
def incrementPC (es : ExecState) : ExecState × Option String :=
  match es.programCounter with
  | .inl p => ({ es with programCounter := .inl (p + 1) }, none)
  | .inr _ => (es, some ("TypeError: program counter is not an int"))

/-- Run the trailing pc increment only when the branch body did not
raise. -/
def thenIncrement : ExecState × Option String → ExecState × Option String
  | (es, none) => incrementPC es
  | (es, some e) => (es, some e)

/-- The low 16 bits of a Python bitwise AND: the & of two ints then
& 0xFFFF equals the Nat AND of the 16-bit residues. -/
def pyAnd16 (a b : Int) : Int :=
  (((a.emod 65536).toNat &&& (b.emod 65536).toNat : Nat) : Int)

/-- The low 16 bits of a Python bitwise OR. -/
def pyOr16 (a b : Int) : Int :=
  (((a.emod 65536).toNat ||| (b.emod 65536).toNat : Nat) : Int)

/-- The low 16 bits of a Python bitwise XOR. -/
def pyXor16 (a b : Int) : Int :=
  (((a.emod 65536).toNat ^^^ (b.emod 65536).toNat : Nat) : Int)

/-- The shared shape of the three-operand ALU branches of
execute_instruction (ADD/SUB/MUL/DIV/AND/OR/XOR): parse rd, rs1, rs2,
fetch both source values, combine them, mask to 16 bits, update the
flags with the given operation tag, then write rd.  A non-int value
(an unresolved label) raises as it does in Python. -/
def binaryArith (es : ExecState) (operands : List String) (requireMsg : String)
    (f : Int → Int → Except String Int) (flagOp : String) : ExecState × Option String :=
  match operands with
  | o0 :: o1 :: o2 :: _ =>
    match processorParseOperand o0 with
    | none => (es, some ("ValueError: invalid operand"))
    | some (rd, _) =>
      match processorParseOperand o1 with
      | none => (es, some ("ValueError: invalid operand"))
      | some (rs1, mode1) =>
        match processorParseOperand o2 with
        | none => (es, some ("ValueError: invalid operand"))
        | some (rs2, mode2) =>
          match getOperandValue es rs1 mode1 with
          | .error e => (es, some e)
          | .ok v1 =>
            match getOperandValue es rs2 mode2 with
            | .error e => (es, some e)
            | .ok v2 =>
              match v1, v2 with
              | .num a, .num b =>
                match f a b with
                | .error e => (es, some e)
                | .ok raw =>
                  let result := raw.emod 65536
                  updateRegister (setFlagsEs es (updateFlags result flagOp)) rd (.num result)
              | _, _ => (es, some ("TypeError: unsupported operand type"))
  | _ => (es, some requireMsg)

/-- The NOT branch: rd = ~rs1 masked to 16 bits (Python ~x is -x-1),
flags from the masked result with the default operation tag. -/
def execNOT (es : ExecState) (operands : List String) : ExecState × Option String :=
  match operands with
  | o0 :: o1 :: _ =>
    match processorParseOperand o0 with
    | none => (es, some ("ValueError: invalid operand"))
    | some (rd, _) =>
      match processorParseOperand o1 with
      | none => (es, some ("ValueError: invalid operand"))
      | some (rs1, mode1) =>
        match getOperandValue es rs1 mode1 with
        | .error e => (es, some e)
        | .ok (.label _) => (es, some ("TypeError: unsupported operand type"))
        | .ok (.num a) =>
          let result := (-a - 1).emod 65536
          updateRegister (setFlagsEs es (updateFlags result (""))) rd (.num result)
  | _ => (es, some ("NOT requires 2 operands: NOT rd, rs1"))

/-- The MOV branch: rd = rs1 masked to 16 bits, no flag update. -/
def execMOV (es : ExecState) (operands : List String) : ExecState × Option String :=
  match operands with
  | o0 :: o1 :: _ =>
    match processorParseOperand o0 with
    | none => (es, some ("ValueError: invalid operand"))
    | some (rd, _) =>
      match processorParseOperand o1 with
      | none => (es, some ("ValueError: invalid operand"))
      | some (rs1, mode1) =>
        match getOperandValue es rs1 mode1 with
        | .error e => (es, some e)
        | .ok (.label _) => (es, some ("TypeError: unsupported operand type"))
        | .ok (.num a) => updateRegister es rd (.num (a.emod 65536))
  | _ => (es, some ("MOV requires 2 operands: MOV rd, rs1"))

/-- The LDI branch: rd = int(imm) & 0xFFFF, where the parsed operand
may still be a str that Python int() accepts or rejects. -/
def execLDI (es : ExecState) (operands : List String) : ExecState × Option String :=
  match operands with
  | o0 :: o1 :: _ =>
    match processorParseOperand o0 with
    | none => (es, some ("ValueError: invalid operand"))
    | some (rd, _) =>
      match processorParseOperand o1 with
      | none => (es, some ("ValueError: invalid operand"))
      | some (imm, _) =>
        match pyIntOfVal imm with
        | none => (es, some ("ValueError: invalid literal for int"))
        | some v => updateRegister es rd (.num (v.emod 65536))
  | _ => (es, some ("LDI requires 2 operands: LDI rd, imm"))

/-- The LDR branch: requires DIRECT addressing; a negative or
out-of-bounds address loads 0 instead of raising. -/
def execLDR (es : ExecState) (operands : List String) : ExecState × Option String :=
  match operands with
  | o0 :: o1 :: _ =>
    match processorParseOperand o0 with
    | none => (es, some ("ValueError: invalid operand"))
    | some (rd, _) =>
      match processorParseOperand o1 with
      | none => (es, some ("ValueError: invalid operand"))
      | some (addr, mode1) =>
        if ¬(mode1 = .direct) then
          (es, some ("LDR requires DIRECT addressing mode"))
        else
          match addr with
          | .label _ => (es, some ("TypeError: memory address is not an int"))
          | .num a =>
            let memVal : Int :=
              if a < 0 then 0
              else if a ≥ (es.ram.length : Int) then 0
              else ((es.ram.get? a.toNat).getD 0).emod 65536
            updateRegister es rd (.num memVal)
  | _ => (es, some ("LDR requires 2 operands: LDR rd, [address]"))

/-- The mode-repair block of the LDRR branch: when the parsed operand
is not indirect-register but looks like [Rn] with 0 <= n <= 7, force
indirect-register mode. -/
def ldrrFix (rs1Str : String) (rs1 : OperandVal) (mode1 : AddressingMode) :
    OperandVal × AddressingMode :=
  if ¬(mode1 = .indirectRegister) then
    if pyStartsWith rs1Str ("[") ∧ pyEndsWith rs1Str ("]") then
      let inner := pyUpper (pyStrip (pyDropRight (pyDrop rs1Str 1) 1))
      if pyStartsWith inner ("R") ∧ inner.data.length ≥ 2 then
        match pyIntOfString (pyDrop inner 1) with
        | some n => if 0 ≤ n ∧ n ≤ 7 then (.num n, .indirectRegister) else (rs1, mode1)
        | none => (rs1, mode1)
      else (rs1, mode1)
    else (rs1, mode1)
  else (rs1, mode1)

/-- The LDRR branch: rd = memory[registers[rs1] & 0xFFFF], with 0
substituted for uninitialised registers, a bad register number or an
out-of-bounds address. -/
def execLDRR (es : ExecState) (operands : List String) : ExecState × Option String :=
  match operands with
  | o0 :: o1 :: _ =>
    match processorParseOperand o0 with
    | none => (es, some ("ValueError: invalid operand"))
    | some (rd, _) =>
      let rs1Str := pyStrip o1
      match processorParseOperand rs1Str with
      | none => (es, some ("ValueError: invalid operand"))
      | some (rs1p, mode1p) =>
        match ldrrFix rs1Str rs1p mode1p with
        | (.label _, _) => (es, some ("TypeError: unorderable types"))
        | (.num r, _) =>
          let memVal : Int :=
            if es.registers.isEmpty then 0
            else if r < 0 ∨ r ≥ (es.registers.length : Int) then 0
            else
              let addr := ((es.registers.get? r.toNat).getD 0).emod 65536
              if es.ram.isEmpty then 0
              else if addr ≥ (es.ram.length : Int) then 0
              else ((es.ram.get? addr.toNat).getD 0).emod 65536
          updateRegister es rd (.num memVal)
  | _ => (es, some ("LDRR requires 2 operands: LDRR rd, [rs1]"))

/-- The STR branch: store the first operand's value through the
second operand's addressing mode.  The debug block between reading
and writing compares the target address against the RAM length, which
raises when the address is an unresolved label and the RAM is
nonempty. -/
def execSTR (es : ExecState) (operands : List String) : ExecState × Option String :=
  match operands with
  | o0 :: o1 :: _ =>
    match processorParseOperand o0 with
    | none => (es, some ("ValueError: invalid operand"))
    | some (rs1, modeRs1) =>
      match processorParseOperand o1 with
      | none => (es, some ("ValueError: invalid operand"))
      | some (addr, modeAddr) =>
        match getOperandValue es rs1 modeRs1 with
        | .error e => (es, some e)
        | .ok v1 =>
          match addr with
          | .label _ =>
            if es.ram.isEmpty then setOperandValue es addr v1 modeAddr
            else (es, some ("TypeError: unorderable types"))
          | .num _ => setOperandValue es addr v1 modeAddr
  | _ => (es, some ("STR requires 2 operands: STR rs1, [address]"))

/-- The STRR branch. -/
def execSTRR (es : ExecState) (operands : List String) : ExecState × Option String :=
  match operands with
  | o0 :: o1 :: _ =>
    match processorParseOperand o0 with
    | none => (es, some ("ValueError: invalid operand"))
    | some (rs1, modeRs1) =>
      match processorParseOperand o1 with
      | none => (es, some ("ValueError: invalid operand"))
      | some (rdv, modeRd) =>
        match getOperandValue es rs1 modeRs1 with
        | .error e => (es, some e)
        | .ok v1 => setOperandValue es rdv v1 modeRd
  | _ => (es, some ("STRR requires 2 operands: STRR rs1, [rd]"))

/-- The CMP branch: flags from the raw, unmasked difference of the
two operand values, with the default operation tag; no register is
written. -/
def execCMP (es : ExecState) (operands : List String) : ExecState × Option String :=
  match operands with
  | o0 :: o1 :: _ =>
    match processorParseOperand o0 with
    | none => (es, some ("ValueError: invalid operand"))
    | some (rs1, mode1) =>
      match processorParseOperand o1 with
      | none => (es, some ("ValueError: invalid operand"))
      | some (rs2, mode2) =>
        match getOperandValue es rs1 mode1 with
        | .error e => (es, some e)
        | .ok v1 =>
          match getOperandValue es rs2 mode2 with
          | .error e => (es, some e)
          | .ok v2 =>
            match v1, v2 with
            | .num a, .num b => (setFlagsEs es (updateFlags (a - b) ("")), none)
            | _, _ => (es, some ("TypeError: unsupported operand type"))
  | _ => (es, some ("CMP requires 2 operands: CMP rs1, rs2"))

/-- The jump target of a jump operand: an immediate operand lands in
the program counter as-is (an int, or the raw label string when the
label was never resolved); any other mode reads the target from the
operand value. -/
def jumpTarget (es : ExecState) (o : String) : Except String (Int ⊕ String) :=
  match processorParseOperand o with
  | none => .error ("ValueError: invalid operand")
  | some (addr, mode1) =>
    if mode1 = .immediate then
      match addr with
      | .num i => .ok (.inl i)
      | .label l => .ok (.inr l)
    else
      match getOperandValue es addr mode1 with
      | .error e => .error e
      | .ok (.num v) => .ok (.inl v)
      | .ok (.label l) => .ok (.inr l)

/-- The JMP branch: set the program counter and return early (no
trailing increment). -/
def execJMP (es : ExecState) (operands : List String) : ExecState × Option String :=
  match operands with
  | o :: _ =>
    match jumpTarget es o with
    | .error e => (es, some e)
    | .ok t => ({ es with programCounter := t }, none)
  | [] => (es, some ("JMP requires 1 operand: JMP address"))

/-- The conditional-jump branches (JZ/JNZ/JC/JNC): when the condition
holds, jump and return early; otherwise fall through to the trailing
program-counter increment. -/
def execCondJump (es : ExecState) (operands : List String) (requireMsg : String)
    (cond : Bool) : ExecState × Option String :=
  match operands with
  | o :: _ =>
    if cond then
      match jumpTarget es o with
      | .error e => (es, some e)
      | .ok t => ({ es with programCounter := t }, none)
    else
      incrementPC es
  | [] => (es, some (requireMsg))

/-- RISCProcessor.execute_instruction: uppercase and dispatch on the
mnemonic.  JV/JNV/JN/JNN are in the instruction table but have no
branch, so they fall straight through to the trailing pc increment;
an unknown mnemonic raises.  The second component carries the raised
message; the first keeps whatever mutations happened before the
raise. -/
def executeInstructionU (es : ExecState) (instr : String)
    (operands : List String) : ExecState × Option String :=
  if (processorOpcode instr).isNone then
    (es, some ("Unknown instruction: " ++ instr))
  else if instr = "ADD" then
    thenIncrement (binaryArith es operands ("ADD requires 3 operands: ADD rd, rs1, rs2")
      (fun a b => .ok (a + b)) ("add"))
  else if instr = "SUB" then
    thenIncrement (binaryArith es operands ("SUB requires 3 operands: SUB rd, rs1, rs2")
      (fun a b => .ok (a - b)) ("sub"))
  else if instr = "MUL" then
    thenIncrement (binaryArith es operands ("MUL requires 3 operands: MUL rd, rs1, rs2")
      (fun a b => .ok (a * b)) (""))
  else if instr = "DIV" then
    thenIncrement (binaryArith es operands ("DIV requires 3 operands: DIV rd, rs1, rs2")
      (fun a b => if b = 0 then .error ("Division by zero") else .ok (Int.fdiv a b)) (""))
  else if instr = "AND" then
    thenIncrement (binaryArith es operands ("AND requires 3 operands: AND rd, rs1, rs2")
      (fun a b => .ok (pyAnd16 a b)) (""))
  else if instr = "OR" then
    thenIncrement (binaryArith es operands ("OR requires 3 operands: OR rd, rs1, rs2")
      (fun a b => .ok (pyOr16 a b)) (""))
  else if instr = "XOR" then
    thenIncrement (binaryArith es operands ("XOR requires 3 operands: XOR rd, rs1, rs2")
      (fun a b => .ok (pyXor16 a b)) (""))
  else if instr = "NOT" then thenIncrement (execNOT es operands)
  else if instr = "MOV" then thenIncrement (execMOV es operands)
  else if instr = "LDI" then thenIncrement (execLDI es operands)
  else if instr = "LDR" then thenIncrement (execLDR es operands)
  else if instr = "LDRR" then thenIncrement (execLDRR es operands)
  else if instr = "STR" then thenIncrement (execSTR es operands)
  else if instr = "STRR" then thenIncrement (execSTRR es operands)
  else if instr = "CMP" then thenIncrement (execCMP es operands)
  else if instr = "JMP" then execJMP es operands
  else if instr = "JZ" then
    execCondJump es operands ("JZ requires 1 operand: JZ address") es.flags.zero
  else if instr = "JNZ" then
    execCondJump es operands ("JNZ requires 1 operand: JNZ address") (!es.flags.zero)
  else if instr = "JC" then
    execCondJump es operands ("JC requires 1 operand: JC address") es.flags.carry
  else if instr = "JNC" then
    execCondJump es operands ("JNC requires 1 operand: JNC address") (!es.flags.carry)
  else if instr = "HALT" then ({ es with isHalted := true }, none)
  else if instr = "NOP" then incrementPC es
  else incrementPC es

/-- RISCProcessor.execute_instruction: uppercase and strip the
mnemonic, then dispatch. -/
def executeInstruction (es : ExecState) (instruction : String)
    (operands : List String) : ExecState × Option String :=
  executeInstructionU es (pyStrip (pyUpper instruction)) operands

/-- models.ProcessorState: the full per-processor register file and
control state. -/
structure ProcessorState where
  registers : List Int
  programCounter : Int ⊕ String
  instructionRegister : Nat
  instructionRegisterAsm : String
  flags : Flags
  currentCommand : String
  isHalted : Bool
  cycles : Nat
deriving DecidableEq, Repr

/-- The ProcessorState defaults of models.py. -/
def ProcessorState.init : ProcessorState :=
  { registers := List.replicate 8 0, programCounter := .inl 0,
    instructionRegister := 0, instructionRegisterAsm := "",
    flags := Flags.clear, currentCommand := "", isHalted := false, cycles := 0 }

/-- One history entry as step() builds it: the command and its
pieces, register and flag snapshots before and after (plus the
duplicated compatibility copies), and the program counter before and
after.  There is no phase tag of any kind. -/
structure HistoryEntry where
  command : String
  instruction : String
  operands : List String
  registersBefore : List Int
  registersAfter : List Int
  registers : List Int
  flagsBefore : Flags
  flagsAfter : Flags
  flags : Flags
  programCounter : Int
  programCounterBefore : Int
deriving DecidableEq, Repr

/-- models.MemoryState: the RAM cells and the execution history. -/
structure MemoryState where
  ram : List Int
  history : List HistoryEntry
deriving DecidableEq, Repr

/-- The full RISCProcessor instance state. -/
structure EmuState where
  memorySize : Nat
  processor : ProcessorState
  memory : MemoryState
  compiledCode : List String
  sourceCode : String
deriving DecidableEq, Repr

/-- RISCProcessor.__init__ with the given memory size. -/
def mkState (memorySize : Nat) : EmuState :=
  { memorySize := memorySize, processor := ProcessorState.init,
    memory := { ram := List.replicate memorySize 0, history := [] },
    compiledCode := [], sourceCode := "" }

/-- Project the slice of state execute_instruction works on. -/
def toExec (s : EmuState) : ExecState :=
  { registers := s.processor.registers, flags := s.processor.flags,
    programCounter := s.processor.programCounter,
    isHalted := s.processor.isHalted, ram := s.memory.ram,
    memorySize := s.memorySize }

/-- Write the execute-phase slice back into the full state; the cycle
counter, instruction-register fields, current command and history are
untouched by construction, mirroring that execute_instruction never
writes them. -/
def fromExec (s : EmuState) (es : ExecState) : EmuState :=
  { s with
    processor := { s.processor with
      registers := es.registers
      flags := es.flags
      programCounter := es.programCounter
      isHalted := es.isHalted },
    memory := { s.memory with ram := es.ram } }

/-- RISCProcessor.load_program: install the compiled code and source,
reset cursor, halt flag, registers, flags, cycle counter and history,
stage the first instruction into the display registers, and leave the
RAM untouched. -/
def loadProgram (s : EmuState) (compiledCode : List String) (sourceCode : String) :
    EmuState :=
  let firstLine := compiledCode.headD ("")
  let firstParts := pySplitWs (replaceCommas firstLine)
  let firstInstruction := firstParts.headD ("")
  let stagedCommand := if compiledCode.isEmpty then ("") else firstLine
  let stagedIR := if compiledCode.isEmpty then 0
    else (processorOpcode firstInstruction).getD 0
  { s with
    compiledCode := compiledCode, sourceCode := sourceCode,
    processor := { s.processor with
      programCounter := .inl 0, isHalted := false,
      registers := List.replicate 8 0, flags := Flags.clear, cycles := 0,
      currentCommand := stagedCommand,
      instructionRegisterAsm := stagedCommand,
      instructionRegister := stagedIR },
    memory := { s.memory with history := [] } }

/-- The defensive memory initialisation at the top of step(): an
empty RAM is replaced by max(0x0200, memory_size) zero cells. -/
def stepMemInit (s : EmuState) : EmuState :=
  if s.memory.ram.isEmpty then
    { s with memory := { s.memory with ram := List.replicate (max 512 s.memorySize) 0 } }
  else s

/-- The register normalisation step() performs in place before
snapshotting: an empty list becomes eight zeros, a short list is
padded to eight. -/
def normalizeRegisters (regs : List Int) : List Int :=
  let r1 := if regs.isEmpty then List.replicate 8 0 else regs
  r1 ++ List.replicate (8 - r1.length) 0

/-- The staging step() performs before the try block: memory
initialisation, register normalisation, and the current command and
opcode written into the instruction-register display fields. -/
def stepPrep (s : EmuState) (line instruction : String) : EmuState :=
  let s1 := stepMemInit s
  let s2 := { s1 with processor := { s1.processor with
    registers := normalizeRegisters s1.processor.registers } }
  { s2 with processor := { s2.processor with
    currentCommand := line, instructionRegisterAsm := line,
    instructionRegister := (processorOpcode instruction).getD 0 } }

/-- The history entry step() appends after a successful execution. -/
def mkHistoryEntry (line instruction : String) (operands : List String)
    (registersBefore registersAfter : List Int) (flagsBefore flagsAfter : Flags)
    (pcBefore pcAfter : Int) : HistoryEntry :=
  { command := pyStrip line, instruction := pyStrip instruction,
    operands := operands.map pyStrip,
    registersBefore := registersBefore, registersAfter := registersAfter,
    registers := registersAfter,
    flagsBefore := flagsBefore, flagsAfter := flagsAfter, flags := flagsAfter,
    programCounter := pcAfter, programCounterBefore := pcBefore }

/-- The part of step() that runs inside the try block after
execute_instruction returned normally: increment the cycle counter,
snapshot the after-state, stage the next instruction into the display
registers, append the history entry.  A program counter that is a
label string, or a far-negative jump target, raises inside the try
between the cycle increment and the history append; the except
handler then halts with the error text, so that step has already
counted a cycle for which no history entry exists. -/
def stepTail (s1 : EmuState) (line instruction : String) (operands : List String)
    (registersBefore : List Int) (flagsBefore : Flags) (pcBefore : Int) :
    Bool × EmuState :=
  let s2 := { s1 with processor := { s1.processor with cycles := s1.processor.cycles + 1 } }
  let s3 := { s2 with processor := { s2.processor with
    registers := normalizeRegisters s2.processor.registers } }
  let registersAfter := (s3.processor.registers.take 8).map (fun r => r.emod 65536)
  let flagsAfter := s3.processor.flags
  match s3.processor.programCounter with
  | .inr _ =>
    (false, { s3 with processor := { s3.processor with
      isHalted := true
      currentCommand := ("ERROR: TypeError: unorderable types") } })
  | .inl pcAfter =>
    let staged : Except String EmuState :=
      if ¬s3.processor.isHalted ∧ pcAfter < (s3.compiledCode.length : Int) then
        match pyListGet s3.compiledCode pcAfter with
        | none => .error ("IndexError: list index out of range")
        | some nextLine =>
          let nextParts := pySplitWs (replaceCommas nextLine)
          let nextInstruction := nextParts.headD ("")
          .ok { s3 with processor := { s3.processor with
            currentCommand := nextLine, instructionRegisterAsm := nextLine,
            instructionRegister := (processorOpcode nextInstruction).getD 0 } }
      else .ok s3
    match staged with
    | .error e =>
      (false, { s3 with processor := { s3.processor with
        isHalted := true
        currentCommand := ("ERROR: " ++ e) } })
    | .ok s4 =>
      let entry := mkHistoryEntry line instruction operands registersBefore
        registersAfter flagsBefore flagsAfter pcBefore pcAfter
      (!s4.processor.isHalted,
       { s4 with memory := { s4.memory with history := s4.memory.history ++ [entry] } })

/-- RISCProcessor.step: one whole fetch-parse-execute-record pass.
The Except layer models the exceptions that can escape step itself
(these sit before the try block): comparing a label-string program
counter against the program length, and indexing the compiled code
with a far-negative counter or taking parts[0] of a blank line.
Everything raised inside the try block is caught and turns into a
halted state whose current command is the error text. -/
def step (s : EmuState) : Except String (Bool × EmuState) :=
  if s.processor.isHalted then .ok (false, s)
  else if s.compiledCode.isEmpty then
    .ok (false, { s with processor := { s.processor with isHalted := true } })
  else
    match s.processor.programCounter with
    | .inr _ => .error ("TypeError: unorderable types")
    | .inl p =>
      if p ≥ (s.compiledCode.length : Int) then
        .ok (false, { s with processor := { s.processor with isHalted := true } })
      else
        match pyListGet s.compiledCode p with
        | none => .error ("IndexError: list index out of range")
        | some line =>
          match pySplitWs (replaceCommas line) with
          | [] => .error ("IndexError: list index out of range")
          | instruction :: operands =>
            let sPrep := stepPrep s line instruction
            let registersBefore := (sPrep.processor.registers.take 8).map (fun r => r.emod 65536)
            let flagsBefore := sPrep.processor.flags
            match executeInstruction (toExec sPrep) instruction operands with
            | (es1, some msg) =>
              let sErr := fromExec sPrep es1
              .ok (false, { sErr with processor := { sErr.processor with
                isHalted := true
                currentCommand := ("ERROR: " ++ msg) } })
            | (es1, none) =>
              .ok (stepTail (fromExec sPrep es1) line instruction operands
                registersBefore flagsBefore p)

/-- Iterated step() calls, propagating any uncaught exception. -/
def stepN : Nat → EmuState → Except String EmuState
  | 0, s => .ok s
  | n + 1, s =>
    match step s with
    | .error e => .error e
    | .ok (_, s1) => stepN n s1

/-- RISCAssembler.parse_line: strip, skip blanks and full-line
comments, cut a trailing comment, split an optional label prefix at
the first colon, then tokenize into an uppercased mnemonic and its
operand tokens.  A lone label line yields no instruction. -/
def parseLine (line : String) : Option String × Option String × List String :=
  let l := pyStrip line
  if l.data.isEmpty ∨ pyStartsWith l (";") then (none, none, [])
  else
    let l1 := if pyContainsChar l ';' then pyStrip (pyBefore l ';') else l
    let labAndRest : Option String × String :=
      if pyContainsChar l1 ':' then
        (some (pyStrip (pyBefore l1 ':')), pyStrip (pyAfter l1 ':'))
      else (none, l1)
    match pySplitWs (replaceCommas labAndRest.2) with
    | [] => (labAndRest.1, none, [])
    | instruction :: rest => (labAndRest.1, some (pyUpper instruction), rest)

/-- RISCAssembler._format_instruction as Pass 1 calls it (no label
table): the normalized "MNEMONIC op1, op2" line. -/
def formatInstruction (instruction : String) (operands : List String) : String :=
  if operands.isEmpty then instruction
  else instruction ++ " " ++ String.intercalate (", ") operands

/-- Label-table lookup (Python dict access on the assembler's label
dict; the table is kept as an association list whose newest binding
shadows older ones, which gives exactly the dict's
last-assignment-wins lookup behaviour). -/
def labelLookup : List (String × Nat) → String → Option Nat
  | [], _ => none
  | (k, v) :: rest, name => if k = name then some v else labelLookup rest name

/-- Label-table assignment labels[k] = v. -/
def labelUpdate (t : List (String × Nat)) (k : String) (v : Nat) :
    List (String × Nat) :=
  (k, v) :: t

/-- Pass 1 of RISCAssembler.assemble: walk the source lines keeping
the compiled-code index; record each (nonempty) label at the current
index, append the normalized form of each instruction line. -/
def pass1 : List String → List (String × Nat) → Nat →
    List String × List (String × Nat)
  | [], labels, _ => ([], labels)
  | line :: rest, labels, codeIndex =>
    let parsed := parseLine line
    let labels1 :=
      match parsed.1 with
      | some l => if ¬l.data.isEmpty then labelUpdate labels l codeIndex else labels
      | none => labels
    match parsed.2.1 with
    | some i =>
      let p := pass1 rest labels1 (codeIndex + 1)
      (formatInstruction i parsed.2.2 :: p.1, p.2)
    | none => pass1 rest labels1 codeIndex

/-- Pass 2 of RISCAssembler.assemble on one compiled line: when the
line has at least one operand token, replace each operand token that
is a key of the label table with the decimal string of its index and
re-join; otherwise pass the line through. -/
def resolveLine (labels : List (String × Nat)) (instructionLine : String) : String :=
  match pySplitWs (replaceCommas instructionLine) with
  | instruction :: op1 :: rest =>
    let resolvedOperands := (op1 :: rest).map (fun op =>
      if (labelLookup labels op).isSome then toString ((labelLookup labels op).getD 0)
      else op)
    instruction ++ " " ++ String.intercalate (", ") resolvedOperands
  | _ => instructionLine

/-- Python source_code.split('\\n') (keeps empty pieces). -/
def splitLinesAux : List Char → List Char → List String
  | [], acc => [String.mk acc.reverse]
  | c :: cs, acc =>
    if c = '\n' then String.mk acc.reverse :: splitLinesAux cs []
    else splitLinesAux cs (c :: acc)

/-- The line list RISCAssembler.assemble iterates over. -/
def pySplitLines (s : String) : List String :=
  splitLinesAux s.data []

/-- RISCAssembler.assemble: Pass 1 builds the compiled lines and the
label table, Pass 2 substitutes label operands. -/
def assemble (sourceCode : String) : List String × List (String × Nat) :=
  match pass1 (pySplitLines sourceCode) [] 0 with
  | (machineCode, labels) => (machineCode.map (resolveLine labels), labels)

/-- Specification-side label semantics, written independently of the
table: the index a label name resolves to is the number of
instruction-carrying lines strictly before the last line that defines
this (nonempty) label. -/
def specLabelIndex : List String → Nat → String → Option Nat
  | [], _, _ => none
  | line :: rest, codeIndex, name =>
    let parsed := parseLine line
    let nextIndex := if parsed.2.1.isSome then codeIndex + 1 else codeIndex
    match specLabelIndex rest nextIndex name with
    | some v => some v
    | none =>
      if parsed.1 = some name ∧ ¬name.data.isEmpty then some codeIndex else none

/-- Specification-side substitution on one compiled line: replace
every operand token that exactly matches a label-table key with the
decimal string of its resolved index, leaving the rest unchanged. -/
def specResolveLine (labels : List (String × Nat)) (instructionLine : String) : String :=
  match pySplitWs (replaceCommas instructionLine) with
  | instruction :: op1 :: rest =>
    instruction ++ " " ++ String.intercalate (", ") ((op1 :: rest).map (fun op =>
      match labelLookup labels op with
      | some v => toString v
      | none => op))
  | _ => instructionLine

/-- Helper: the carry rule of update_flags, stated as a proposition. -/
theorem updateFlags_carry_iff (result : Int) (operation : String) :
    (updateFlags result operation).carry = true ↔
      ((operation = "add" ∧ result < 0) ∨ (operation = "sub" ∧ result > 0)) := by
  unfold updateFlags
  dsimp only
  split
  · simp_all
  · split
    · simp_all
    · simp_all

/-- C2: update_flags sets zero iff the result is 0, negative iff it
is negative, overflow iff it lies outside the signed 16-bit range,
and carry exactly for a negative "add" result or a positive "sub"
result. -/
theorem claim2_theorem (result : Int) (operation : String) :
    ((updateFlags result operation).zero = true ↔ result = 0)
    ∧ ((updateFlags result operation).negative = true ↔ result < 0)
    ∧ ((updateFlags result operation).overflow = true ↔
        (result > 32767 ∨ result < -32768))
    ∧ ((updateFlags result operation).carry = true ↔
        ((operation = "add" ∧ result < 0) ∨ (operation = "sub" ∧ result > 0))) := by
  refine ⟨?_, ?_, ?_, updateFlags_carry_iff result operation⟩
  · simp [updateFlags]
  · simp [updateFlags]
  · simp [updateFlags]

/-- C9: load_program resets the program counter, the halt flag, the
flags, the registers, the cycle counter and the history, and leaves
every memory cell unchanged. -/
theorem claim9_theorem (s : EmuState) (code : List String) (src : String) :
    (loadProgram s code src).processor.programCounter = .inl 0
    ∧ (loadProgram s code src).processor.isHalted = false
    ∧ (loadProgram s code src).processor.flags = Flags.clear
    ∧ (loadProgram s code src).processor.registers = List.replicate 8 0
    ∧ (loadProgram s code src).processor.cycles = 0
    ∧ (loadProgram s code src).memory.history = []
    ∧ (loadProgram s code src).memory.ram = s.memory.ram :=
  ⟨rfl, rfl, rfl, rfl, rfl, rfl, rfl⟩

/-- C8 counterexample: the 16-bit word 4 (opcode 0, all register
fields 0, addressing-mode field 4) satisfies the claim's operand
bound, yet decode collapses the mode field to the register code 2, so
re-encoding yields 2, not 4. -/
theorem claim8_counterexample :
    procEncodeField (procDecodeInstruction 4) = 2
    ∧ 4 % 2 ^ 12 ≤ 0xFFF
    ∧ ¬(procEncodeField (procDecodeInstruction 4) = 4) := by
  decide

/-- Helper: the decode-encode mode tables invert each other on the
codes 0-3. -/
theorem modeToCode_modeOfCode (n : Nat) (h : n ≤ 3) :
    modeToCode (modeOfCode n) = n := by
  have h4 : n = 0 ∨ n = 1 ∨ n = 2 ∨ n = 3 := by omega
  rcases h4 with rfl | rfl | rfl | rfl <;> rfl

/-- C8 amended: for a 16-bit word whose addressing-mode field (the
low three bits) holds one of the four defined codes 0-3, re-encoding
the decoded fields with the processor's own encoder reproduces the
word; words with mode field 4-7 are collapsed to code 2 and do not
round-trip, and the assembler's opcode/operand encoder has no
matching decoder at all. -/
theorem claim8_theorem (w : Nat) (h1 : w ≤ 0xFFFF) (h2 : w % 8 ≤ 3) :
    procEncodeField (procDecodeInstruction w) = w := by
  unfold procDecodeInstruction procEncodeField procEncodeInstruction
  have hng : ¬w > 0xFFFF := by omega
  simp only [hng, if_false]
  have hmode := modeToCode_modeOfCode (w % 8) h2
  split
  · rename_i hcontra
    exact absurd rfl hcontra.2
  · rw [hmode]
    omega

/-- C8 witness: the concrete word 0x1233 (mode field 3) satisfies the
hypotheses and round-trips. -/
theorem claim8_witness : procEncodeField (procDecodeInstruction 0x1233) = 0x1233 :=
  claim8_theorem 0x1233 (by decide) (by decide)

/-- A processor state used to test ADD: R0 = 5 and memory cell 1
holds 100, so an accumulator-machine ADD reading memory at address 1
would produce 105. -/
def c1es : ExecState :=
  { registers := [5, 0, 0, 0, 0, 0, 0, 0], flags := Flags.clear,
    programCounter := .inl 0, isHalted := false,
    ram := [0, 100, 0, 0], memorySize := 4 }

/-- C1 counterexample: ADD R0, R0, 1 executes successfully with an
Immediate third operand (so arithmetic operands are not restricted to
Direct addressing), and it adds the literal 1 to R0 - the result is
6, not (ACC + mem[1]) mod 2^16 = 105; moreover the instruction-info
table itself lists "immediate" as a permitted addressing mode for
ADD. -/
theorem claim1_counterexample :
    (executeInstruction c1es ("ADD") ["R0", "R0", "1"]).2 = none
    ∧ processorParseOperand ("1") = some (.num 1, .immediate)
    ∧ (executeInstruction c1es ("ADD") ["R0", "R0", "1"]).1.registers.headD 0 = 6
    ∧ c1es.ram.get? 1 = some 100
    ∧ ¬((6 : Int) = (5 + 100 : Int).emod 65536)
    ∧ (getInstructionInfo ("ADD") =
        .inr (InstrInfo.mk 1 ("I") ("ADD operand") ["operand"] ["immediate", "direct"])) := by
  refine ⟨by decide, by decide, by decide, rfl, by decide, by decide⟩

/-- C1 amended: ADD is a three-operand register instruction - with
parsed destination rd and source operands resolving to values a and
b, it sets the flags from (a + b) mod 2^16 via the "add" rule and
writes that masked sum to register rd, then advances the program
counter; its operands may resolve through any addressing mode,
Immediate included, and get_instruction_info lists both immediate and
direct for the arithmetic/logic/compare mnemonics. -/
theorem claim1_theorem :
    (∀ (es : ExecState) (o0 o1 o2 : String) (rest : List String)
       (rd rs1 rs2 : OperandVal) (m0 m1 m2 : AddressingMode) (a b : Int),
      processorParseOperand o0 = some (rd, m0) →
      processorParseOperand o1 = some (rs1, m1) →
      processorParseOperand o2 = some (rs2, m2) →
      getOperandValue es rs1 m1 = .ok (.num a) →
      getOperandValue es rs2 m2 = .ok (.num b) →
      executeInstruction es ("ADD") (o0 :: o1 :: o2 :: rest) =
        thenIncrement (updateRegister
          (setFlagsEs es (updateFlags ((a + b).emod 65536) ("add")))
          rd (.num ((a + b).emod 65536))))
    ∧ (getInstructionInfo ("ADD") =
        .inr (InstrInfo.mk 1 ("I") ("ADD operand") ["operand"] ["immediate", "direct"])) := by
  constructor
  · intro es o0 o1 o2 rest rd rs1 rs2 m0 m1 m2 a b h0 h1 h2 h3 h4
    have e1 : pyStrip (pyUpper ("ADD")) = "ADD" := by decide
    simp only [executeInstruction, e1, executeInstructionU]
    simp only [if_true]
    simp only [binaryArith, h0, h1, h2, h3, h4]
    rw [if_neg (by decide)]
  · decide

/-- C1 witness: the amended ADD rule applied at the concrete state
c1es and operands R1, R0, 7. -/
theorem claim1_witness :
    executeInstruction c1es ("ADD") ["R1", "R0", "7"] =
      thenIncrement (updateRegister
        (setFlagsEs c1es (updateFlags ((5 + 7 : Int).emod 65536) ("add")))
        (.num 1) (.num ((5 + 7 : Int).emod 65536))) :=
  claim1_theorem.1 c1es ("R1") ("R0") ("7") [] (.num 1) (.num 0) (.num 7)
    .register .register .immediate 5 7 (by decide) (by decide) (by decide)
    rfl rfl

/-- C5 counterexample: the processor's own _parse_operand (one of the
two parse_operand implementations the claim covers) classifies the
token 0x10 as an Immediate value 16, not as a Direct address. -/
theorem claim5_counterexample :
    processorParseOperand ("0x10") = some (.num 16, .immediate)
    ∧ ¬(processorParseOperand ("0x10") = some (.num 16, .direct)) := by
  decide

/-- C5 amended: the assembler's _parse_operand follows exactly the
claimed priority order (brackets then 0x/0X then plain decimal then
label), but the processor's _parse_operand checks plain decimals
first and maps 0x tokens to Immediate, so the claimed order holds
only for the assembler implementation. -/
theorem claim5_theorem :
    (∀ t, (pyStartsWith (pyStrip t) ("[") ∧ pyEndsWith (pyStrip t) ("]")) →
      assemblerParseOperand t =
        (parseNumber (pyStrip (pyDropRight (pyDrop (pyStrip t) 1) 1))).map
          (fun n => (.num n, .direct)))
    ∧ (∀ t, ¬(pyStartsWith (pyStrip t) ("[") ∧ pyEndsWith (pyStrip t) ("]")) →
        (pyStartsWith (pyStrip t) ("0x") ∨ pyStartsWith (pyStrip t) ("0X")) →
        assemblerParseOperand t =
          (parseNumber (pyStrip t)).map (fun n => (.num n, .direct)))
    ∧ (∀ t, ¬(pyStartsWith (pyStrip t) ("[") ∧ pyEndsWith (pyStrip t) ("]")) →
        ¬(pyStartsWith (pyStrip t) ("0x") ∨ pyStartsWith (pyStrip t) ("0X")) →
        (pyIsDigitStr (pyStrip t) ∨
          (pyStartsWith (pyStrip t) ("-") ∧ pyIsDigitStr (pyDrop (pyStrip t) 1))) →
        assemblerParseOperand t =
          (parseNumber (pyStrip t)).map (fun n => (.num n, .immediate)))
    ∧ (∀ t, ¬(pyStartsWith (pyStrip t) ("[") ∧ pyEndsWith (pyStrip t) ("]")) →
        ¬(pyStartsWith (pyStrip t) ("0x") ∨ pyStartsWith (pyStrip t) ("0X")) →
        ¬(pyIsDigitStr (pyStrip t) ∨
          (pyStartsWith (pyStrip t) ("-") ∧ pyIsDigitStr (pyDrop (pyStrip t) 1))) →
        assemblerParseOperand t = some (.label (pyStrip t), .immediate))
    ∧ processorParseOperand ("0x10") = some (.num 16, .immediate) := by
  refine ⟨?_, ?_, ?_, ?_, by decide⟩
  · intro t h1
    simp only [assemblerParseOperand]
    rw [if_pos h1]
  · intro t h1 h2
    simp only [assemblerParseOperand]
    rw [if_neg h1, if_pos h2]
  · intro t h1 h2 h3
    simp only [assemblerParseOperand]
    rw [if_neg h1, if_neg h2, if_pos h3]
  · intro t h1 h2 h3
    simp only [assemblerParseOperand]
    rw [if_neg h1, if_neg h2, if_neg h3]

/-- C5 witness: the four assembler classes at the concrete tokens
[5], 0x1F, -12 and loop. -/
theorem claim5_witness :
    assemblerParseOperand ("[5]") = some (.num 5, .direct)
    ∧ assemblerParseOperand ("0x1F") = some (.num 31, .direct)
    ∧ assemblerParseOperand ("-12") = some (.num (-12), .immediate)
    ∧ assemblerParseOperand ("loop") = some (.label ("loop"), .immediate) := by
  refine ⟨?_, ?_, ?_, ?_⟩
  · rw [claim5_theorem.1 ("[5]") (by decide)]
    decide
  · rw [claim5_theorem.2.1 ("0x1F") (by decide) (by decide)]
    decide
  · rw [claim5_theorem.2.2.1 ("-12") (by decide) (by decide) (by decide)]
    decide
  · rw [claim5_theorem.2.2.2.1 ("loop") (by decide) (by decide) (by decide)]
    decide

/-- A small machine with four memory cells for memory-bounds tests. -/
def c10es : ExecState :=
  { registers := List.replicate 8 0, flags := Flags.clear,
    programCounter := .inl 0, isHalted := false,
    ram := [0, 0, 0, 0], memorySize := 4 }

/-- C10 counterexample: on a four-cell memory, a direct read at
address 10 succeeds and returns 0 instead of failing, and a direct
write at address 10 succeeds and silently grows the memory to 11
cells - no out-of-bounds error condition is ever produced. -/
theorem claim10_counterexample :
    getOperandValue c10es (.num 10) .direct = .ok (.num 0)
    ∧ (setOperandValue c10es (.num 10) (.num 5) .direct).2 = none
    ∧ (setOperandValue c10es (.num 10) (.num 5) .direct).1.ram.length = 11
    ∧ ¬((11 : Nat) = 4) := by
  refine ⟨rfl, rfl, by decide, by decide⟩

/-- Helper: the out-of-bounds direct write on a nonempty RAM extends
it to a + 1 cells and stores the masked value, with no error. -/
theorem setDirectRam_extend (es : ExecState) (a v : Int)
    (hne : es.ram.isEmpty = false) (hlen : (es.ram.length : Int) ≤ a) :
    setDirectRam es a (.num v) =
      ({ es with ram := ((es.ram ++ List.replicate ((a + 1).toNat - es.ram.length) 0).set a.toNat (v.emod 65536)) }, none) := by
  have h2 : a ≥ (es.ram.length : Int) := hlen
  have h3 : ¬(a < 0) := by omega
  simp only [setDirectRam, hne, Bool.false_eq_true, if_false, pyIntOfVal, h2, if_true, h3,
    ite_true, ite_false]

/-- C10 amended: memory starts at the constructed size, but an
out-of-bounds direct read returns 0 (no error), an out-of-bounds
direct write automatically extends the memory to address + 1 cells
and stores the 16-bit-masked value (no error), and a direct write
never shrinks the memory. -/
theorem claim10_theorem :
    (∀ m, (mkState m).memory.ram.length = m)
    ∧ (∀ (es : ExecState) (a : Int), 0 ≤ a → (es.ram.length : Int) ≤ a →
        getOperandValue es (.num a) .direct = .ok (.num 0))
    ∧ (∀ (es : ExecState) (a v : Int), (es.ram.length : Int) ≤ a →
        es.ram.isEmpty = false →
        (setOperandValue es (.num a) (.num v) .direct).2 = none
        ∧ (((setOperandValue es (.num a) (.num v) .direct).1.ram.length : Int) = a + 1)
        ∧ ((setOperandValue es (.num a) (.num v) .direct).1.ram)[a.toNat]? =
            some (v.emod 65536))
    ∧ (∀ (es : ExecState) (a v : Int),
        es.ram.length ≤ (setOperandValue es (.num a) (.num v) .direct).1.ram.length) := by
  refine ⟨?_, ?_, ?_, ?_⟩
  · intro m
    simp [mkState]
  · intro es a h0 hlen
    simp only [getOperandValue]
    rw [if_neg (by omega)]
  · intro es a v hlen hne
    have hlen0 : 0 < es.ram.length := by
      cases h : es.ram with
      | nil => rw [h] at hne; simp [List.isEmpty] at hne
      | cons x xs => simp [h]
    simp only [setOperandValue, setDirectRam_extend es a v hne hlen]
    refine ⟨trivial, ?_, ?_⟩
    · simp only [List.length_set, List.length_append, List.length_replicate]
      omega
    · rw [List.getElem?_set_eq_of_lt]
      simp only [List.length_set, List.length_append, List.length_replicate]
      omega
  · intro es a v
    by_cases hemp : es.ram.isEmpty
    · have h0 : es.ram.length = 0 := by
        cases h : es.ram with
        | nil => simp
        | cons x xs => rw [h] at hemp; simp [List.isEmpty] at hemp
      omega
    · have hne : es.ram.isEmpty = false := by simpa using hemp
      by_cases hge : (es.ram.length : Int) ≤ a
      · rw [setOperandValue, setDirectRam_extend es a v hne hge]
        simp only [List.length_set, List.length_append, List.length_replicate]
        omega
      · have hlt : ¬(a ≥ (es.ram.length : Int)) := by omega
        simp only [setOperandValue, setDirectRam, hne, Bool.false_eq_true, if_false,
          pyIntOfVal, hlt, ite_false]
        by_cases hneg : a < 0
        · simp only [hneg, ite_true]
          split
          · exact le_refl _
          · rw [List.length_set]
        · simp only [hneg, ite_false]
          rw [List.length_set]

/-- C10 witness: the amended rules applied at the concrete four-cell
machine and address 10. -/
theorem claim10_witness :
    getOperandValue c10es (.num 10) .direct = .ok (.num 0)
    ∧ (setOperandValue c10es (.num 10) (.num 70000) .direct).2 = none
    ∧ ((setOperandValue c10es (.num 10) (.num 70000) .direct).1.ram.length : Int) = 11
    ∧ ((setOperandValue c10es (.num 10) (.num 70000) .direct).1.ram)[(10 : Int).toNat]? =
        some ((70000 : Int).emod 65536) :=
  ⟨claim10_theorem.2.1 c10es 10 (by decide) (by decide),
   (claim10_theorem.2.2.1 c10es 10 70000 (by decide) (by decide)).1,
   (claim10_theorem.2.2.1 c10es 10 70000 (by decide) (by decide)).2.1,
   (claim10_theorem.2.2.1 c10es 10 70000 (by decide) (by decide)).2.2⟩

/-- C4: calling step with the program counter at or past the end of
the compiled program (which includes the no-program case, where the
empty-code test fires first) halts the processor and returns stop,
with no exception (the result is an ok value, never an error). -/
theorem claim4_theorem (s : EmuState)
    (h : s.compiledCode = [] ∨ ∃ p : Int, s.processor.programCounter = .inl p
      ∧ (s.compiledCode.length : Int) ≤ p) :
    ∃ s2, step s = .ok (false, s2) ∧ s2.processor.isHalted = true := by
  by_cases hh : s.processor.isHalted = true
  · refine ⟨s, ?_, hh⟩
    simp [step, hh]
  · rcases h with hempty | ⟨p, hpc, hlen⟩
    · refine ⟨{ s with processor := { s.processor with isHalted := true } }, ?_, rfl⟩
      simp [step, hh, hempty]
    · by_cases hempty : s.compiledCode.isEmpty = true
      · refine ⟨{ s with processor := { s.processor with isHalted := true } }, ?_, rfl⟩
        simp [step, hh, hempty]
      · refine ⟨{ s with processor := { s.processor with isHalted := true } }, ?_, rfl⟩
        simp only [step, hh, Bool.false_eq_true, if_false, hempty, hpc]
        rw [if_pos (by omega)]

/-- C4 witness: stepping a freshly constructed processor with no
program loaded halts it and returns stop. -/
theorem claim4_witness :
    ∃ s2, step (mkState 4) = .ok (false, s2) ∧ s2.processor.isHalted = true :=
  claim4_theorem (mkState 4) (Or.inl rfl)

/-- C3: whenever execute_instruction raises (its result carries an
error message), step catches it, halts the processor permanently,
records the error as the current command text and returns stop; a
further step call on the resulting state returns stop immediately and
changes nothing, so the instruction is never retried. -/
theorem claim3_theorem (s : EmuState) (p : Int) (line instruction : String)
    (operands : List String) (es1 : ExecState) (msg : String)
    (hHalt : s.processor.isHalted = false)
    (hNe : s.compiledCode.isEmpty = false)
    (hPC : s.processor.programCounter = .inl p)
    (hLt : ¬(p ≥ (s.compiledCode.length : Int)))
    (hGet : pyListGet s.compiledCode p = some line)
    (hParts : pySplitWs (replaceCommas line) = instruction :: operands)
    (hExec : executeInstruction (toExec (stepPrep s line instruction)) instruction operands
      = (es1, some msg)) :
    ∃ s2, step s = .ok (false, s2)
      ∧ s2.processor.isHalted = true
      ∧ s2.processor.currentCommand = ("ERROR: " ++ msg)
      ∧ step s2 = .ok (false, s2) := by
  refine ⟨{ (fromExec (stepPrep s line instruction) es1) with
    processor := { (fromExec (stepPrep s line instruction) es1).processor with
      isHalted := true
      currentCommand := ("ERROR: " ++ msg) } }, ?_, rfl, rfl, ?_⟩
  · simp only [step, hHalt, Bool.false_eq_true, if_false, hNe, hPC, hLt, ite_false,
      hGet, hParts, hExec]
  · rfl

/-- A loaded two-line program whose first instruction divides by the
zero held in R1. -/
def c3s : EmuState := loadProgram (mkState 4) ["DIV R0, R0, R1", "NOP"] ("")

/-- C3 witness: the division-by-zero program halts with the
DivisionByZero error recorded and is never retried. -/
theorem claim3_witness :
    ∃ s2, step c3s = .ok (false, s2)
      ∧ s2.processor.isHalted = true
      ∧ s2.processor.currentCommand = ("ERROR: " ++ "Division by zero")
      ∧ step s2 = .ok (false, s2) :=
  claim3_theorem c3s 0 ("DIV R0, R0, R1") ("DIV") ["R0", "R0", "R1"]
    (toExec (stepPrep c3s ("DIV R0, R0, R1") ("DIV"))) ("Division by zero")
    rfl rfl rfl (by decide) rfl rfl rfl


/-- Helper: the label table built by Pass 1 looks up a name to
exactly the specification-side index (the compiled-line count before
the last definition of that label), falling back to the incoming
table. -/
theorem pass1_labelLookup (lines : List String) (labels : List (String × Nat))
    (codeIndex : Nat) (name : String) :
    labelLookup (pass1 lines labels codeIndex).2 name =
      (match specLabelIndex lines codeIndex name with
       | some v => some v
       | none => labelLookup labels name) := by
  induction lines generalizing labels codeIndex with
  | nil => simp [pass1, specLabelIndex]
  | cons line rest ih =>
    simp only [pass1, specLabelIndex]
    rcases hpl : parseLine line with ⟨lab, instr, ops⟩
    simp only [hpl]
    rcases instr with _ | i
    · simp only [Option.isSome_none, Bool.false_eq_true, if_false]
      rw [ih]
      rcases hs : specLabelIndex rest codeIndex name with _ | v
      · simp only []
        rcases lab with _ | l
        · simp [labelLookup]
        · by_cases hl : l = name
          · subst hl
            by_cases he : l.data.isEmpty = true
            · simp [he]
            · simp [he, labelUpdate, labelLookup]
          · by_cases he : l.data.isEmpty = true
            · simp [he, hl]
            · simp only [he, Bool.false_eq_true, not_false_eq_true, if_true,
                labelUpdate, labelLookup, hl, if_false]
              rw [if_neg]
              intro hc
              exact hl (by injection hc.1)
      · simp
    · simp only [Option.isSome_some, if_true]
      rw [ih]
      rcases hs : specLabelIndex rest (codeIndex + 1) name with _ | v
      · simp only []
        rcases lab with _ | l
        · simp [labelLookup]
        · by_cases hl : l = name
          · subst hl
            by_cases he : l.data.isEmpty = true
            · simp [he]
            · simp [he, labelUpdate, labelLookup]
          · by_cases he : l.data.isEmpty = true
            · simp [he, hl]
            · simp only [he, Bool.false_eq_true, not_false_eq_true, if_true,
                labelUpdate, labelLookup, hl, if_false]
              rw [if_neg]
              intro hc
              exact hl (by injection hc.1)
      · simp

/-- Helper: Pass 2 on one line is exactly the specification-side
token-wise substitution. -/
theorem resolveLine_eq_spec (labels : List (String × Nat)) (line : String) :
    resolveLine labels line = specResolveLine labels line := by
  unfold resolveLine specResolveLine
  have hfun : (fun op => if (labelLookup labels op).isSome
      then toString ((labelLookup labels op).getD 0) else op) =
      (fun op => match labelLookup labels op with
        | some v => toString v
        | none => op) := by
    funext op
    cases h : labelLookup labels op with
    | none => simp [h]
    | some v => simp [h]
  rcases h : pySplitWs (replaceCommas line) with _ | ⟨i, rest⟩
  · rfl
  · rcases rest with _ | ⟨o, rest2⟩
    · rfl
    · simp only [hfun]

/-- C6: assemble builds the label table in Pass 1 - a name resolves
to the number of compiled lines before its last definition (so a
duplicate label silently keeps the last definition, and a label on or
before a given instruction line gets that line's compiled index) -
and Pass 2 rewrites every compiled line by replacing each operand
token that exactly matches a label-table key with the decimal string
of its index, leaving other operands unchanged; because the table is
complete before Pass 2 runs, forward references resolve. -/
theorem claim6_theorem (sourceCode : String) (name : String) :
    labelLookup (assemble sourceCode).2 name =
      specLabelIndex (pySplitLines sourceCode) 0 name
    ∧ (assemble sourceCode).1 =
      (pass1 (pySplitLines sourceCode) [] 0).1.map
        (specResolveLine (assemble sourceCode).2) := by
  constructor
  · have h := pass1_labelLookup (pySplitLines sourceCode) [] 0 name
    have ha : (assemble sourceCode).2 = (pass1 (pySplitLines sourceCode) [] 0).2 := by
      unfold assemble
      rcases hp : pass1 (pySplitLines sourceCode) [] 0 with ⟨mc, labels⟩
      rfl
    rw [ha, h]
    rcases hs : specLabelIndex (pySplitLines sourceCode) 0 name with _ | v
    · simp [labelLookup]
    · simp
  · have hb : ∀ labels, resolveLine labels = specResolveLine labels := by
      intro labels
      funext l
      exact resolveLine_eq_spec labels l
    unfold assemble
    rcases hp : pass1 (pySplitLines sourceCode) [] 0 with ⟨mc, labels⟩
    simp [hb]

/-- The history-cycle accounting invariant: the history has one entry
per counted cycle, except immediately after the anomalous failing
step (a jump that wrote a label string or a far-negative target to
the program counter), which counts a cycle, appends nothing and
halts. -/
def historyCycleInv (s : EmuState) : Prop :=
  s.memory.history.length = s.processor.cycles ∨
    (s.processor.isHalted = true ∧ s.memory.history.length + 1 = s.processor.cycles)

/-- Helper: staging never touches the history. -/
theorem stepPrep_history (s : EmuState) (line instruction : String) :
    (stepPrep s line instruction).memory.history = s.memory.history := by
  unfold stepPrep stepMemInit
  split <;> rfl

/-- Helper: staging never touches the cycle counter. -/
theorem stepPrep_cycles (s : EmuState) (line instruction : String) :
    (stepPrep s line instruction).processor.cycles = s.processor.cycles := by
  unfold stepPrep stepMemInit
  split <;> rfl

/-- Helper: staging never touches the halt flag. -/
theorem stepPrep_halted (s : EmuState) (line instruction : String) :
    (stepPrep s line instruction).processor.isHalted = s.processor.isHalted := by
  unfold stepPrep stepMemInit
  split <;> rfl

/-- Helper: the tail of a successful step preserves the accounting
invariant - it either appends exactly one history entry for the one
cycle it counts, or fails between the two and halts. -/
theorem stepTail_inv (s1 : EmuState) (line instruction : String)
    (operands : List String) (rb : List Int) (fb : Flags) (pb : Int)
    (h : s1.memory.history.length = s1.processor.cycles) :
    historyCycleInv (stepTail s1 line instruction operands rb fb pb).2 := by
  unfold stepTail
  dsimp only
  rcases hpc : s1.processor.programCounter with p | lab
  · dsimp only
    split
    · rename_i e heq
      split at heq
      · rcases hget : pyListGet s1.compiledCode p with _ | nextLine
        · rw [hget] at heq
          cases heq
          right
          refine ⟨rfl, ?_⟩
          simp [h]
        · rw [hget] at heq
          dsimp only at heq
          cases heq
      · cases heq
    · rename_i s4 heq
      split at heq
      · rcases hget : pyListGet s1.compiledCode p with _ | nextLine
        · rw [hget] at heq
          cases heq
        · rw [hget] at heq
          dsimp only at heq
          cases heq
          left
          simp [h]
      · cases heq
        left
        simp [h]
  · right
    refine ⟨rfl, ?_⟩
    simp [h]

/-- Helper: one step preserves the history-cycle accounting
invariant. -/
theorem step_inv (s : EmuState) (b : Bool) (s2 : EmuState)
    (h : step s = .ok (b, s2)) (hI : historyCycleInv s) : historyCycleInv s2 := by
  unfold step at h
  by_cases hh : s.processor.isHalted = true
  · rw [if_pos hh] at h
    cases h
    exact hI
  · rw [if_neg hh] at h
    have hEq : s.memory.history.length = s.processor.cycles := by
      rcases hI with h1 | ⟨h2, _⟩
      · exact h1
      · exact absurd h2 hh
    by_cases hempty : s.compiledCode.isEmpty = true
    · rw [if_pos hempty] at h
      cases h
      left
      exact hEq
    · rw [if_neg hempty] at h
      rcases hpc : s.processor.programCounter with p | lab
      · rw [hpc] at h
        dsimp only at h
        by_cases hge : p ≥ (s.compiledCode.length : Int)
        · rw [if_pos hge] at h
          cases h
          left
          exact hEq
        · rw [if_neg hge] at h
          rcases hget : pyListGet s.compiledCode p with _ | line
          · rw [hget] at h
            cases h
          · rw [hget] at h
            dsimp only at h
            rcases hparts : pySplitWs (replaceCommas line) with _ | ⟨instr, ops⟩
            · rw [hparts] at h
              cases h
            · rw [hparts] at h
              dsimp only at h
              have h1 : (fromExec (stepPrep s line instr)
                  (executeInstruction (toExec (stepPrep s line instr)) instr ops).1).memory.history =
                  s.memory.history := by
                rw [show (fromExec (stepPrep s line instr)
                    (executeInstruction (toExec (stepPrep s line instr)) instr ops).1).memory.history =
                  (stepPrep s line instr).memory.history from rfl, stepPrep_history]
              have h2 : (fromExec (stepPrep s line instr)
                  (executeInstruction (toExec (stepPrep s line instr)) instr ops).1).processor.cycles =
                  s.processor.cycles := by
                rw [show (fromExec (stepPrep s line instr)
                    (executeInstruction (toExec (stepPrep s line instr)) instr ops).1).processor.cycles =
                  (stepPrep s line instr).processor.cycles from rfl, stepPrep_cycles]
              rcases hex : executeInstruction (toExec (stepPrep s line instr)) instr ops
                with ⟨es1, err⟩
              rw [hex] at h h1 h2
              dsimp only at h1 h2
              rcases err with _ | msg
              · dsimp only at h
                injection h with hp
                have h3 := congrArg Prod.snd hp
                dsimp only at h3
                rw [← h3]
                apply stepTail_inv
                rw [h1, h2]
                exact hEq
              · dsimp only at h
                injection h with hp
                injection hp with hb hs2
                rw [← hs2]
                left
                show (fromExec (stepPrep s line instr) es1).memory.history.length =
                  (fromExec (stepPrep s line instr) es1).processor.cycles
                rw [h1, h2]
                exact hEq
      · rw [hpc] at h
        cases h

/-- Helper: any number of steps preserves the accounting invariant. -/
theorem stepN_inv (n : Nat) (s s1 : EmuState)
    (h : stepN n s = .ok s1) (hI : historyCycleInv s) : historyCycleInv s1 := by
  induction n generalizing s with
  | zero =>
    unfold stepN at h
    cases h
    exact hI
  | succ n ih =>
    unfold stepN at h
    rcases hs : step s with e | ⟨b, s3⟩
    · rw [hs] at h
      cases h
    · rw [hs] at h
      exact ih s3 h (step_inv s b s3 hs hI)

/-- C7 amended: starting from any load_program, every successful
sequence of step calls keeps the history length equal to the cycle
counter - one untagged history entry per successfully executed
instruction - except that a step that fails after execution (a jump
that wrote an unresolved-label string or a far-negative target into
the program counter) halts with one counted cycle and no entry, after
which nothing changes.  There are no fetch- or decode-tagged entries
at all: step appends exactly one entry per instruction. -/
theorem claim7_theorem (base : EmuState) (code : List String) (src : String)
    (n : Nat) (s1 : EmuState)
    (h : stepN n (loadProgram base code src) = .ok s1) :
    s1.memory.history.length = s1.processor.cycles ∨
      (s1.processor.isHalted = true
        ∧ s1.memory.history.length + 1 = s1.processor.cycles) :=
  stepN_inv n (loadProgram base code src) s1 h (Or.inl rfl)

/-- The final state of running the NOP; HALT program for two steps. -/
def c7s : EmuState :=
  (stepN 2 (loadProgram (mkState 4) ["NOP", "HALT"] (""))).toOption.getD (mkState 4)

/-- C7 witness: the two-instruction NOP/HALT program runs to a state
where the history length equals the cycle counter (both are 2). -/
theorem claim7_witness :
    stepN 2 (loadProgram (mkState 4) ["NOP", "HALT"] ("")) = .ok c7s
    ∧ (c7s.memory.history.length = c7s.processor.cycles
      ∨ (c7s.processor.isHalted = true
        ∧ c7s.memory.history.length + 1 = c7s.processor.cycles)) :=
  ⟨rfl, claim7_theorem (mkState 4) ["NOP", "HALT"] ("") 2 c7s rfl⟩

/-- C7 counterexample: running the two-instruction program NOP; HALT
executes two instructions and leaves exactly two history entries -
one untagged entry per instruction, so the number of entries is not
three per instruction (one per phase), and there are no fetch-tagged
entries whose count could equal the two executed instructions. -/
theorem claim7_counterexample :
    (stepN 2 (loadProgram (mkState 4) ["NOP", "HALT"] (""))).map
        (fun s => (s.memory.history.length, s.processor.cycles)) = .ok (2, 2)
    ∧ ¬((2 : Nat) = 3 * 2) :=
  ⟨rfl, by decide⟩
